import Mathlib

/-!
Shallow embedding of the BandLab repository's revision / mix-session core.

The embedding follows the TypeScript worker API (`apps/worker/src/index.ts`),
the SQL schema and stored function (`supabase/migrations/202602220001_init.sql`)
and, where a claim cites it, the browser-side mock implementation of the same
HTTP endpoints (`src/unnamed/part_000`, `mockApiFetch`).

Modelling conventions:
* UUIDs are opaque identifiers; they are modelled as `Nat`.  Freshly generated
  ids (`gen_random_uuid()` / `crypto.randomUUID()`) are passed in by the caller
  of each operation; uuid collisions are outside the model.
* Database tables are lists of rows.  Row order in a list is representation
  only: the tables are keyed sets and no modelled endpoint exposes an order
  that any claim depends on, so the `order by` clauses of read queries are
  elided.
* `numeric` columns (`gain_db`, `pan`, `duration_sec`) are modelled as `Rat`;
  `integer`/`bigint` columns that the schemas constrain to be non-negative
  (`byte_size`, `sample_rate`, `channels`, `start_offset_ms`, revision
  numbers) as `Nat`; `sort_order` (unconstrained int) as `Int`.
* Authentication, band membership checks, timestamps, `created_by`, s3
  presigned URLs and the zod range validation happen before/around the state
  logic the claims are about and are elided; each operation models the
  post-validation handler body.
* Each operation is a function `DB → args → Except ApiError α × DB`: the
  returned `DB` is the store after the call, also when the call reports an
  error (a validation failure leaves the store untouched; a unique-constraint
  failure after the separate counter rpc keeps the advanced counter, exactly
  as the worker's two independent statements would).
-/

namespace BandLab

/-- `tracks` row (columns the modelled logic reads/writes). -/
structure Track where
  id : Nat
  song_id : Nat
  name : String
  instrument_type : Option String
  sort_order : Int
  active_revision_id : Option Nat
deriving DecidableEq

/-- `track_revisions` row. -/
structure Revision where
  id : Nat
  track_id : Nat
  revision_number : Nat
  title : Option String
  memo : Option String
  idempotency_key : Option String
deriving DecidableEq

/-- enum `asset_type`. -/
inductive AssetType where
  | audio_preview
  | audio_source
  | midi
deriving DecidableEq

/-- enum `asset_status`. -/
inductive AssetStatus where
  | pending
  | uploaded
  | ready
  | failed
deriving DecidableEq

/-- zod enum `assetFormatSchema`. -/
inductive AssetFormat where
  | mp3
  | wav
  | mid
deriving DecidableEq

def AssetType.str : AssetType → String
  | .audio_preview => "audio_preview"
  | .audio_source => "audio_source"
  | .midi => "midi"

def AssetFormat.ext : AssetFormat → String
  | .mp3 => "mp3"
  | .wav => "wav"
  | .mid => "mid"

/-- `track_assets` row. -/
structure Asset where
  id : Nat
  track_revision_id : Nat
  asset_type : AssetType
  format : AssetFormat
  s3_key : String
  content_type : String
  byte_size : Option Nat
  duration_sec : Option Rat
  sample_rate : Option Nat
  channels : Option Nat
  status : AssetStatus
deriving DecidableEq

/-- `mix_sessions` row (the `is_default` column is never written by any
modelled endpoint and is elided). -/
structure MixSession where
  id : Nat
  song_id : Nat
  name : String
deriving DecidableEq

/-- `mix_session_tracks` row; primary key `(mix_session_id, track_id)`. -/
structure MixSessionTrack where
  mix_session_id : Nat
  track_id : Nat
  track_revision_id : Option Nat
  mute : Bool
  gain_db : Rat
  pan : Rat
  start_offset_ms : Nat
deriving DecidableEq

/-- The persistent store.  `songs` rows are reduced to their ids: no modelled
claim reads any other `songs` column.  `counters` is the
`track_revision_counters` table as an association list
`(track_id, next_revision_number)`. -/
structure DB where
  songs : List Nat
  tracks : List Track
  counters : List (Nat × Nat)
  revisions : List Revision
  assets : List Asset
  sessions : List MixSession
  sessionTracks : List MixSessionTrack
deriving DecidableEq

/-- Error kinds the worker surfaces (HTTP status + message). -/
inductive ApiError where
  | notFound (msg : String)
  | conflict (msg : String)
  | internal (msg : String)
deriving DecidableEq

/-! ## SQL stored function -/

/-- `allocate_track_revision_number(p_track_id)`:
insert `(track_id, 1)` into `track_revision_counters`, on conflict update
`next_revision_number` to the stored value plus one, and return the stored
value (`returning next_revision_number`).  Atomicity of the single SQL
statement is modelled by this being one step of the sequential model. -/
def allocate_track_revision_number (counters : List (Nat × Nat)) (tid : Nat) :
    Nat × List (Nat × Nat) :=
  match counters.find? (fun c => c.1 == tid) with
  | some c =>
      (c.2 + 1, counters.map (fun d => if d.1 == tid then (d.1, d.2 + 1) else d))
  | none => (1, counters ++ [(tid, 1)])

/-! ## Worker endpoints (post-authorization handler bodies) -/

/-- Body of `POST /api/tracks/:trackId/revisions` (`createRevisionSchema`). -/
structure CreateRevisionBody where
  title : Option String
  memo : Option String
  idempotency_key : Option String
deriving DecidableEq

/-- The allocate-and-insert tail of the create-revision handler.  The insert's
unique-violation branch (`error.code === "23505"`, constraints
`unique(track_id, revision_number)` and `unique(track_id, idempotency_key)`,
null keys never conflicting) returns 409 "Revision conflict"; the counter rpc
has already committed by then. -/
def createRevisionInsert (db : DB) (trackId : Nat) (body : CreateRevisionBody)
    (newId : Nat) : Except ApiError Revision × DB :=
  let alloc := allocate_track_revision_number db.counters trackId
  let db' := { db with counters := alloc.2 }
  let rev : Revision :=
    { id := newId, track_id := trackId, revision_number := alloc.1,
      title := body.title, memo := body.memo,
      idempotency_key := body.idempotency_key }
  if db.revisions.any (fun r =>
      r.track_id == trackId &&
        (r.revision_number == alloc.1 ||
          (body.idempotency_key.isSome && r.idempotency_key == body.idempotency_key))) then
    (.error (.conflict "Revision conflict"), db')
  else
    (.ok rev, { db' with revisions := db.revisions ++ [rev] })

/-- `POST /api/tracks/:trackId/revisions`: 404 when the track does not exist;
with an idempotency key, first return any existing `(track_id, key)` revision
unchanged; otherwise allocate a number and insert. -/
def createRevision (db : DB) (trackId : Nat) (body : CreateRevisionBody)
    (newId : Nat) : Except ApiError Revision × DB :=
  match db.tracks.find? (fun t => t.id == trackId) with
  | none => (.error (.notFound "Track not found"), db)
  | some _ =>
    match body.idempotency_key with
    | some k =>
      match db.revisions.find?
          (fun r => r.track_id == trackId && r.idempotency_key == some k) with
      | some existing => (.ok existing, db)
      | none => createRevisionInsert db trackId body newId
    | none => createRevisionInsert db trackId body newId

/-- `POST /api/tracks/:trackId/active`: 404 when the track does not exist;
404 "Revision not found" when no revision has this id *and* this track_id;
otherwise update the track's `active_revision_id`. -/
def setActiveRevision (db : DB) (trackId : Nat) (revisionId : Nat) :
    Except ApiError Unit × DB :=
  match db.tracks.find? (fun t => t.id == trackId) with
  | none => (.error (.notFound "Track not found"), db)
  | some _ =>
    match db.revisions.find?
        (fun r => r.id == revisionId && r.track_id == trackId) with
    | none => (.error (.notFound "Revision not found"), db)
    | some _ =>
      (.ok (), { db with tracks := db.tracks.map (fun t =>
        if t.id == trackId then { t with active_revision_id := some revisionId } else t) })

/-- Body of `PATCH /api/tracks/:trackId` (`updateTrackSchema`): every field
optional; `active_revision_id` additionally nullable, hence
`Option (Option Nat)` (outer layer: supplied at all; inner: null or an id).
Fields that are `undefined` are dropped from the update payload by the
client library, leaving the column untouched. -/
structure UpdateTrackBody where
  name : Option String
  instrument_type : Option String
  sort_order : Option Int
  active_revision_id : Option (Option Nat)
deriving DecidableEq

/-- `PATCH /api/tracks/:trackId`: 404 when the track does not exist; otherwise
overwrite exactly the supplied columns.  The handler itself performs no
check on `active_revision_id`; the only check is the database foreign key
`tracks_active_revision_fk`, which requires a supplied non-null id to exist in
`track_revisions` (any track's) and surfaces as a 500 otherwise. -/
def updateTrack (db : DB) (trackId : Nat) (body : UpdateTrackBody) :
    Except ApiError Unit × DB :=
  match db.tracks.find? (fun t => t.id == trackId) with
  | none => (.error (.notFound "Track not found"), db)
  | some _ =>
    match body.active_revision_id with
    | some (some rid) =>
      if db.revisions.any (fun r => r.id == rid) then
        (.ok (), { db with tracks := db.tracks.map (fun t =>
          if t.id == trackId then applyTrackUpdate t body else t) })
      else
        (.error (.internal "foreign key violation on active_revision_id"), db)
    | _ =>
      (.ok (), { db with tracks := db.tracks.map (fun t =>
        if t.id == trackId then applyTrackUpdate t body else t) })
where
  applyTrackUpdate (t : Track) (body : UpdateTrackBody) : Track :=
    { t with
      name := body.name.getD t.name,
      instrument_type := match body.instrument_type with
        | some v => some v
        | none => t.instrument_type,
      sort_order := body.sort_order.getD t.sort_order,
      active_revision_id := body.active_revision_id.getD t.active_revision_id }

/-- Body of `POST /api/revisions/:revisionId/assets/presign`
(`presignAssetSchema`; `filename` is never read by the handler). -/
structure PresignBody where
  asset_type : AssetType
  format : AssetFormat
  content_type : String
  byte_size : Option Nat
deriving DecidableEq

/-- `POST /api/revisions/:revisionId/assets/presign`: 404 when the revision
(joined through its track, `getRevisionWithBand`) does not exist; then insert
a brand-new `track_assets` row with a fresh id in status `pending`.  A
violation of `unique(track_revision_id, asset_type)` (`23505`) returns
409 "Asset type already exists for this revision" and writes nothing. -/
def presignAsset (db : DB) (revisionId : Nat) (body : PresignBody)
    (assetId : Nat) : Except ApiError Nat × DB :=
  match db.revisions.find? (fun r => r.id == revisionId) with
  | none => (.error (.notFound "Revision not found"), db)
  | some rev =>
    match db.tracks.find? (fun t => t.id == rev.track_id) with
    | none => (.error (.notFound "Revision not found"), db)
    | some tr =>
      if db.assets.any (fun a =>
          a.track_revision_id == revisionId && a.asset_type == body.asset_type) then
        (.error (.conflict "Asset type already exists for this revision"), db)
      else
        let s3Key := toString tr.song_id ++ "/" ++ toString rev.track_id ++ "/" ++
          toString revisionId ++ "/" ++ body.asset_type.str ++ "-" ++
          toString assetId ++ "." ++ body.format.ext
        let asset : Asset :=
          { id := assetId, track_revision_id := revisionId,
            asset_type := body.asset_type, format := body.format,
            s3_key := s3Key, content_type := body.content_type,
            byte_size := body.byte_size, duration_sec := none,
            sample_rate := none, channels := none, status := .pending }
        (.ok assetId, { db with assets := db.assets ++ [asset] })

/-- Body of `POST /api/assets/:assetId/complete` (`completeAssetSchema`):
all four metadata fields optional. -/
structure CompleteAssetBody where
  byte_size : Option Nat
  duration_sec : Option Rat
  sample_rate : Option Nat
  channels : Option Nat
deriving DecidableEq

/-- `POST /api/assets/:assetId/complete`: 404 when the asset does not exist
(`getAssetWithBand`; its inner joins to revision/track/song cannot fail under
the schema's foreign keys); otherwise set `status` to `ready` unconditionally
and overwrite exactly the supplied metadata columns (unsupplied `undefined`
fields are dropped from the update payload). -/
def completeAsset (db : DB) (assetId : Nat) (body : CompleteAssetBody) :
    Except ApiError Asset × DB :=
  match db.assets.find? (fun a => a.id == assetId) with
  | none => (.error (.notFound "Asset not found"), db)
  | some a =>
    let a' : Asset :=
      { a with
        status := .ready,
        byte_size := match body.byte_size with
          | some v => some v
          | none => a.byte_size,
        duration_sec := match body.duration_sec with
          | some v => some v
          | none => a.duration_sec,
        sample_rate := match body.sample_rate with
          | some v => some v
          | none => a.sample_rate,
        channels := match body.channels with
          | some v => some v
          | none => a.channels }
    (.ok a', { db with assets := db.assets.map (fun x => if x.id == assetId then a' else x) })

/-- zod enum `mixSessionBaseSchema`. -/
inductive MixBase where
  | active
  | latest
deriving DecidableEq

/-- The revision of `tid` with the greatest `revision_number`, if any.  The
worker materializes this by fetching the revisions of the song's tracks
ordered by `revision_number` descending and keeping the first row per track;
under the schema's `unique(track_id, revision_number)` both are the unique
argmax.  (On ties — impossible under the constraint — this keeps the earlier
row.) -/
def pickLatest (revs : List Revision) (tid : Nat) : Option Revision :=
  (revs.filter (fun r => r.track_id == tid)).foldl
    (fun acc r =>
      match acc with
      | none => some r
      | some b => if b.revision_number < r.revision_number then some r else some b)
    none

/-- Per-track source-revision resolution of `POST /api/songs/:songId/sessions`. -/
def resolveBase (db : DB) (base : MixBase) (t : Track) : Option Nat :=
  match base with
  | .active => t.active_revision_id
  | .latest => (pickLatest db.revisions t.id).map (fun r => r.id)

/-- The snapshot row written for track `t` of a new session. -/
def snapshotRow (db : DB) (base : MixBase) (sessionId : Nat) (t : Track) :
    MixSessionTrack :=
  { mix_session_id := sessionId, track_id := t.id,
    track_revision_id := resolveBase db base t,
    mute := false, gain_db := 0, pan := 0, start_offset_ms := 0 }

/-- `POST /api/songs/:songId/sessions`: 404 when the song does not exist;
insert the `mix_sessions` row; resolve one source revision per track of the
song (per `base`); insert one `mix_session_tracks` row per track with the
resolved id and the literal defaults `mute=false, gain_db=0, pan=0,
start_offset_ms=0` (the insert is skipped when the song has no tracks). -/
def createSession (db : DB) (songId : Nat) (name : String) (base : MixBase)
    (sessionId : Nat) : Except ApiError MixSession × DB :=
  if db.songs.contains songId then
    let sess : MixSession := { id := sessionId, song_id := songId, name := name }
    let songTracks := db.tracks.filter (fun t => t.song_id == songId)
    let rows := songTracks.map (snapshotRow db base sessionId)
    let db' := { db with sessions := db.sessions ++ [sess] }
    if rows.isEmpty then
      (.ok sess, db')
    else
      (.ok sess, { db' with sessionTracks := db.sessionTracks ++ rows })
  else
    (.error (.notFound "Song not found"), db)

/-- One element of the body of `PUT /api/sessions/:sessionId/tracks`
(`updateSessionTracksSchema`). -/
structure SessionTrackInput where
  track_id : Nat
  track_revision_id : Option Nat
  mute : Bool
  gain_db : Rat
  pan : Rat
  start_offset_ms : Nat
deriving DecidableEq

/-- The row an input is upserted as. -/
def SessionTrackInput.toRow (t : SessionTrackInput) (sessionId : Nat) :
    MixSessionTrack :=
  { mix_session_id := sessionId, track_id := t.track_id,
    track_revision_id := t.track_revision_id, mute := t.mute,
    gain_db := t.gain_db, pan := t.pan, start_offset_ms := t.start_offset_ms }

/-- One upsert on conflict target `(mix_session_id, track_id)`: overwrite the
matching row when one exists, append otherwise. -/
def upsertRow (rows : List MixSessionTrack) (n : MixSessionTrack) :
    List MixSessionTrack :=
  if rows.any (fun r => r.mix_session_id == n.mix_session_id && r.track_id == n.track_id) then
    rows.map (fun r =>
      if r.mix_session_id == n.mix_session_id && r.track_id == n.track_id then n else r)
  else
    rows ++ [n]

/-- `PUT /api/sessions/:sessionId/tracks`: 404 when the session does not
exist; otherwise **upsert** the provided rows with
`onConflict: "mix_session_id,track_id"`.  No row is deleted: rows of this
session whose track is absent from the payload are left in place.  (A payload
naming the same track twice would make the upsert statement fail; the claims
only use payloads with distinct tracks.) -/
def replaceSessionTracks (db : DB) (sessionId : Nat)
    (body : List SessionTrackInput) : Except ApiError Unit × DB :=
  match db.sessions.find? (fun s => s.id == sessionId) with
  | none => (.error (.notFound "Session not found"), db)
  | some _ =>
    let news := body.map (fun t => t.toRow sessionId)
    (.ok (), { db with sessionTracks := news.foldl upsertRow db.sessionTracks })

/-- `POST /api/songs/:songId/tracks`: 404 when the song does not exist; the
new track's `sort_order` is the max existing order plus one — via JS
truthiness, a max of `0` (falsy) also restarts at `1` — and
`active_revision_id` starts null. -/
def createTrack (db : DB) (songId : Nat) (name : String)
    (instrument_type : Option String) (newId : Nat) : Except ApiError Track × DB :=
  if db.songs.contains songId then
    let top := (db.tracks.filter (fun t => t.song_id == songId)).foldl
      (fun acc t =>
        match acc with
        | none => some t
        | some b => if b.sort_order < t.sort_order then some t else some b)
      none
    let sortOrder : Int := match top with
      | some t => if t.sort_order == 0 then 1 else t.sort_order + 1
      | none => 1
    let track : Track :=
      { id := newId, song_id := songId, name := name,
        instrument_type := instrument_type, sort_order := sortOrder,
        active_revision_id := none }
    (.ok track, { db with tracks := db.tracks ++ [track] })
  else
    (.error (.notFound "Song not found"), db)

/-! ## Browser-side mock implementation of the same endpoints
(`src/unnamed/part_000`, `mockApiFetch`).  Its in-memory rows carry fewer
columns than the SQL tables; `MockState` keeps only the tables the claims
read.  The mock's track rows have the same modelled fields as `Track` and its
session-track rows the same fields as `MixSessionTrack`, so those types are
reused. -/

/-- Mock revision row (`MockRevision`): no idempotency key. -/
structure MockRevision where
  id : Nat
  track_id : Nat
  revision_number : Nat
  title : Option String
  memo : Option String
deriving DecidableEq

/-- Mock asset row (`MockAsset`). -/
structure MockAsset where
  id : Nat
  track_revision_id : Nat
  asset_type : AssetType
  format : AssetFormat
  status : AssetStatus
  content_type : String
  byte_size : Option Nat
deriving DecidableEq

/-- The slice of the mock's module-level `state` that the claims read. -/
structure MockState where
  tracks : List Track
  revisions : List MockRevision
  assets : List MockAsset
  mixSessions : List MixSession
  mixSessionTracks : List MixSessionTrack
deriving DecidableEq

/-- Mock `POST /api/tracks/:trackId/revisions`: number is
`max(revision_number) + 1` over the track's rows (0 base), and when the
track's `active_revision_id` is null (falsy) the new revision is promoted to
active. -/
def mockCreateRevision (st : MockState) (trackId : Nat) (title memo : Option String)
    (newId : Nat) : Except String MockRevision × MockState :=
  match st.tracks.find? (fun t => t.id == trackId) with
  | none => (.error "Track not found", st)
  | some _ =>
    let currentMax := (st.revisions.filter (fun r => r.track_id == trackId)).foldl
      (fun m r => max m r.revision_number) 0
    let rev : MockRevision :=
      { id := newId, track_id := trackId, revision_number := currentMax + 1,
        title := title, memo := memo }
    let tracks' := st.tracks.map (fun t =>
      if t.id == trackId && t.active_revision_id == none then
        { t with active_revision_id := some newId }
      else t)
    (.ok rev, { st with revisions := st.revisions ++ [rev], tracks := tracks' })

/-- Mock `POST /api/revisions/:revisionId/assets/presign`: when an asset with
the same `(track_revision_id, asset_type)` exists, reset that asset's status
to `pending` and return its id; otherwise push a new pending asset. -/
def mockPresignAsset (st : MockState) (revisionId : Nat) (body : PresignBody)
    (newId : Nat) : Except String Nat × MockState :=
  match st.revisions.find? (fun r => r.id == revisionId) with
  | none => (.error "Revision not found", st)
  | some _ =>
    match st.assets.find? (fun a =>
        a.track_revision_id == revisionId && a.asset_type == body.asset_type) with
    | some sameType =>
      (.ok sameType.id, { st with assets := st.assets.map (fun a =>
        if a.track_revision_id == revisionId && a.asset_type == body.asset_type then
          { a with status := .pending }
        else a) })
    | none =>
      let asset : MockAsset :=
        { id := newId, track_revision_id := revisionId,
          asset_type := body.asset_type, format := body.format,
          content_type := body.content_type, status := .pending,
          byte_size := body.byte_size }
      (.ok newId, { st with assets := st.assets ++ [asset] })

/-- Mock `PUT /api/sessions/:sessionId/tracks`: drop **all** rows of the
session, then push the provided rows — a true full replace. -/
def mockReplaceSessionTracks (st : MockState) (sessionId : Nat)
    (body : List SessionTrackInput) : Except String Unit × MockState :=
  match st.mixSessions.find? (fun s => s.id == sessionId) with
  | none => (.error "Session not found", st)
  | some _ =>
    (.ok (), { st with mixSessionTracks :=
      (st.mixSessionTracks.filter (fun t => t.mix_session_id != sessionId) ++
        body.map (fun t => t.toRow sessionId)) })

/-! ## Helper lemmas -/

theorem find?_eq_none_of_forall {α : Type} {l : List α} {p : α → Bool}
    (h : ∀ x ∈ l, p x = false) : l.find? p = none := by
  rw [List.find?_eq_none]
  intro x hx
  simp [h x hx]

theorem any_eq_false_iff {α : Type} {l : List α} {p : α → Bool} :
    l.any p = false ↔ ∀ x ∈ l, p x = false := by
  simp [List.any_eq_false]

/-! ## Claim theorems -/

/-- C8: mix-session snapshots are detached copies.  `setActiveRevision` writes
only the `tracks` table — `mix_session_tracks` (and `mix_sessions`,
`track_revisions`, `track_assets`) are untouched; creating a revision or a
track never writes `mix_session_tracks`; and creating a new session only adds
rows, leaving every existing `mix_session_tracks` row in place unchanged. -/
theorem C8_sessions_are_detached_snapshots :
    (∀ (db : DB) (tid rid : Nat),
      (setActiveRevision db tid rid).2.sessionTracks = db.sessionTracks ∧
      (setActiveRevision db tid rid).2.sessions = db.sessions ∧
      (setActiveRevision db tid rid).2.revisions = db.revisions ∧
      (setActiveRevision db tid rid).2.assets = db.assets) ∧
    (∀ (db : DB) (tid : Nat) (b : CreateRevisionBody) (nid : Nat),
      (createRevision db tid b nid).2.sessionTracks = db.sessionTracks) ∧
    (∀ (db : DB) (sid : Nat) (nm : String) (it : Option String) (nid : Nat),
      (createTrack db sid nm it nid).2.sessionTracks = db.sessionTracks) ∧
    (∀ (db : DB) (sid : Nat) (nm : String) (base : MixBase) (sessId : Nat),
      ∀ r ∈ db.sessionTracks, r ∈ (createSession db sid nm base sessId).2.sessionTracks) := by
  refine ⟨?_, ?_, ?_, ?_⟩
  · intro db tid rid
    unfold setActiveRevision
    split
    · exact ⟨rfl, rfl, rfl, rfl⟩
    · split <;> exact ⟨rfl, rfl, rfl, rfl⟩
  · intro db tid b nid
    unfold createRevision
    split
    · rfl
    · split
      · split
        · rfl
        · unfold createRevisionInsert
          dsimp only
          split <;> rfl
      · unfold createRevisionInsert
        dsimp only
        split <;> rfl
  · intro db sid nm it nid
    unfold createTrack
    split <;> rfl
  · intro db sid nm base sessId r hr
    unfold createSession
    split
    · dsimp only
      split
      · exact hr
      · exact List.mem_append_left _ hr
    · exact hr

/-- The store used by the C8 witness. -/
def dbC8 : DB :=
  { songs := [9], tracks := [], counters := [], revisions := [], assets := [],
    sessions := [], sessionTracks := [⟨1, 2, some 3, false, 0, 0, 0⟩] }

theorem C8_witness :
    (⟨1, 2, some 3, false, 0, 0, 0⟩ : MixSessionTrack) ∈ dbC8.sessionTracks ∧
      (⟨1, 2, some 3, false, 0, 0, 0⟩ : MixSessionTrack) ∈
        (createSession dbC8 9 "v2" MixBase.active 4).2.sessionTracks :=
  ⟨by decide,
    C8_sessions_are_detached_snapshots.2.2.2 dbC8 9 "v2" MixBase.active 4
      ⟨1, 2, some 3, false, 0, 0, 0⟩ (by decide)⟩

/-- A fresh track (no revisions, null active pointer) for the C3
counterexample. -/
def trackC3 : Track :=
  { id := 1, song_id := 0, name := "Guitar", instrument_type := none,
    sort_order := 1, active_revision_id := none }

/-- Store for the C3 counterexample: one song, one fresh track. -/
def dbC3 : DB :=
  { songs := [0], tracks := [trackC3], counters := [], revisions := [],
    assets := [], sessions := [], sessionTracks := [] }

/-- C3 counterexample: on the worker API, creating the first-ever revision of
a track with a null active pointer succeeds (revision number 1) but does NOT
set `active_revision_id` — the pointer stays null, contradicting the claimed
auto-promotion. -/
theorem C3_counterexample :
    (createRevision dbC3 1 ⟨none, none, none⟩ 5).1 =
        .ok { id := 5, track_id := 1, revision_number := 1, title := none,
              memo := none, idempotency_key := none } ∧
      (createRevision dbC3 1 ⟨none, none, none⟩ 5).2.tracks = [trackC3] ∧
      trackC3.active_revision_id = none ∧ trackC3.active_revision_id ≠ some 5 :=
  ⟨rfl, rfl, rfl, by decide⟩

/-- C3 amended: the worker's `createRevision` never modifies the `tracks`
table at all, so no revision — first or later — is ever auto-promoted there;
the pointer moves only via `setActive` (or `PATCH /api/tracks`).  The mock
client implementation is the one that auto-promotes: it sets the pointer to
the new revision exactly when the pointer is currently null (which, in
mock-reachable states, is exactly the track's first revision), and leaves an
already-set pointer unchanged on subsequent revisions. -/
theorem C3_no_auto_promotion_in_worker :
    (∀ (db : DB) (tid : Nat) (b : CreateRevisionBody) (nid : Nat),
      (createRevision db tid b nid).2.tracks = db.tracks) ∧
    (∀ (st : MockState) (tid : Nat) (title memo : Option String) (nid : Nat)
        (t : Track), t ∈ st.tracks → t.id = tid → t.active_revision_id = none →
      { t with active_revision_id := some nid } ∈
        (mockCreateRevision st tid title memo nid).2.tracks) ∧
    (∀ (st : MockState) (tid : Nat) (title memo : Option String) (nid : Nat)
        (t : Track) (r0 : Nat), t ∈ st.tracks → t.active_revision_id = some r0 →
      t ∈ (mockCreateRevision st tid title memo nid).2.tracks) := by
  refine ⟨?_, ?_, ?_⟩
  · intro db tid b nid
    unfold createRevision
    split
    · rfl
    · split
      · split
        · rfl
        · unfold createRevisionInsert
          dsimp only
          split <;> rfl
      · unfold createRevisionInsert
        dsimp only
        split <;> rfl
  · intro st tid title memo nid t ht htid hact
    unfold mockCreateRevision
    split
    · rename_i hfind
      exfalso
      have := List.find?_eq_none.mp hfind t ht
      simp [htid] at this
    · dsimp only
      have hmem := List.mem_map_of_mem
        (f := fun t : Track =>
          if t.id == tid && t.active_revision_id == none then
            { t with active_revision_id := some nid }
          else t) ht
      simpa [htid, hact] using hmem
  · intro st tid title memo nid t r0 ht hact
    unfold mockCreateRevision
    split
    · exact ht
    · dsimp only
      have hmem := List.mem_map_of_mem
        (f := fun t : Track =>
          if t.id == tid && t.active_revision_id == none then
            { t with active_revision_id := some nid }
          else t) ht
      simpa [hact] using hmem

/-- Mock store for the C3 witness: one fresh track, one track that already
has an active revision. -/
def mockStC3 : MockState :=
  { tracks := [trackC3,
      { id := 2, song_id := 0, name := "Bass", instrument_type := none,
        sort_order := 2, active_revision_id := some 7 }],
    revisions := [{ id := 7, track_id := 2, revision_number := 1,
                    title := none, memo := none }],
    assets := [], mixSessions := [], mixSessionTracks := [] }

theorem C3_no_auto_promotion_in_worker_witness :
    (trackC3 ∈ mockStC3.tracks ∧ trackC3.id = 1 ∧
        trackC3.active_revision_id = none ∧
        { trackC3 with active_revision_id := some 5 } ∈
          (mockCreateRevision mockStC3 1 none none 5).2.tracks) ∧
      (createRevision dbC3 1 ⟨none, none, some "retry"⟩ 6).2.tracks = dbC3.tracks :=
  ⟨⟨by decide, rfl, rfl,
      C3_no_auto_promotion_in_worker.2.1 mockStC3 1 none none 5 trackC3
        (by decide) rfl rfl⟩,
    C3_no_auto_promotion_in_worker.1 dbC3 1 ⟨none, none, some "retry"⟩ 6⟩

/-- C10: `completeAsset` imposes no precondition on the asset's current
status: for an existing asset in ANY status (the status is universally
quantified here, so `failed` and `ready` included) the call succeeds, sets
the status to `ready`, overwrites each of the four optional metadata columns
exactly when it is supplied and keeps the stored value otherwise, and leaves
every other asset row unchanged. -/
theorem C10_complete_asset_unconditional (db : DB) (assetId : Nat)
    (body : CompleteAssetBody) (a : Asset)
    (h : db.assets.find? (fun x => x.id == assetId) = some a) :
    ∃ a', (completeAsset db assetId body).1 = .ok a' ∧
      a'.status = .ready ∧
      a'.id = a.id ∧
      (∀ v, body.byte_size = some v → a'.byte_size = some v) ∧
      (body.byte_size = none → a'.byte_size = a.byte_size) ∧
      (∀ v, body.duration_sec = some v → a'.duration_sec = some v) ∧
      (body.duration_sec = none → a'.duration_sec = a.duration_sec) ∧
      (∀ v, body.sample_rate = some v → a'.sample_rate = some v) ∧
      (body.sample_rate = none → a'.sample_rate = a.sample_rate) ∧
      (∀ v, body.channels = some v → a'.channels = some v) ∧
      (body.channels = none → a'.channels = a.channels) ∧
      a' ∈ (completeAsset db assetId body).2.assets ∧
      (∀ x ∈ db.assets, x.id ≠ assetId → x ∈ (completeAsset db assetId body).2.assets) := by
  have hpred := List.find?_some h
  have hmem := List.mem_of_find?_eq_some h
  unfold completeAsset
  rw [h]
  dsimp only
  refine ⟨_, rfl, rfl, rfl, ?_, ?_, ?_, ?_, ?_, ?_, ?_, ?_, ?_, ?_⟩
  · intro v hv; simp [hv]
  · intro hv; simp [hv]
  · intro v hv; simp [hv]
  · intro hv; simp [hv]
  · intro v hv; simp [hv]
  · intro hv; simp [hv]
  · intro v hv; simp [hv]
  · intro hv; simp [hv]
  · have := List.mem_map_of_mem
      (f := fun x : Asset => if x.id == assetId then
        { a with
          status := .ready,
          byte_size := match body.byte_size with
            | some v => some v
            | none => a.byte_size,
          duration_sec := match body.duration_sec with
            | some v => some v
            | none => a.duration_sec,
          sample_rate := match body.sample_rate with
            | some v => some v
            | none => a.sample_rate,
          channels := match body.channels with
            | some v => some v
            | none => a.channels } else x) hmem
    simpa [hpred] using this
  · intro x hx hne
    have hb : (x.id == assetId) = false := by simp [hne]
    have := List.mem_map_of_mem
      (f := fun y : Asset => if y.id == assetId then
        { a with
          status := .ready,
          byte_size := match body.byte_size with
            | some v => some v
            | none => a.byte_size,
          duration_sec := match body.duration_sec with
            | some v => some v
            | none => a.duration_sec,
          sample_rate := match body.sample_rate with
            | some v => some v
            | none => a.sample_rate,
          channels := match body.channels with
            | some v => some v
            | none => a.channels } else y) hx
    simpa [hb] using this

/-- Asset in status `failed` with stored metadata, for the C10 witness. -/
def assetC10 : Asset :=
  { id := 3, track_revision_id := 2, asset_type := .audio_source, format := .wav,
    s3_key := "0/1/2/audio_source-3.wav", content_type := "audio/wav",
    byte_size := some 4, duration_sec := none, sample_rate := some 44100,
    channels := some 2, status := .failed }

/-- Store for the C10 witness. -/
def dbC10 : DB :=
  { songs := [0], tracks := [], counters := [], revisions := [],
    assets := [assetC10], sessions := [], sessionTracks := [] }

theorem C10_complete_asset_unconditional_witness :
    dbC10.assets.find? (fun x => x.id == 3) = some assetC10 ∧
      ∃ a', (completeAsset dbC10 3 ⟨some 99, none, none, none⟩).1 = .ok a' ∧
        a'.status = .ready ∧
        a'.id = assetC10.id ∧
        (∀ v, (some 99 : Option Nat) = some v → a'.byte_size = some v) ∧
        ((some 99 : Option Nat) = none → a'.byte_size = assetC10.byte_size) ∧
        (∀ v, (none : Option Rat) = some v → a'.duration_sec = some v) ∧
        ((none : Option Rat) = none → a'.duration_sec = assetC10.duration_sec) ∧
        (∀ v, (none : Option Nat) = some v → a'.sample_rate = some v) ∧
        ((none : Option Nat) = none → a'.sample_rate = assetC10.sample_rate) ∧
        (∀ v, (none : Option Nat) = some v → a'.channels = some v) ∧
        ((none : Option Nat) = none → a'.channels = assetC10.channels) ∧
        a' ∈ (completeAsset dbC10 3 ⟨some 99, none, none, none⟩).2.assets ∧
        (∀ x ∈ dbC10.assets, x.id ≠ 3 →
          x ∈ (completeAsset dbC10 3 ⟨some 99, none, none, none⟩).2.assets) :=
  ⟨rfl, C10_complete_asset_unconditional dbC10 3 ⟨some 99, none, none, none⟩ assetC10 rfl⟩

/-- C9: the generic `PATCH /api/tracks/:trackId` writes whatever
`active_revision_id` the caller supplies without any belongs-to-this-track
check: whenever the supplied id is an existing revision of a DIFFERENT track
(`r.track_id ≠ tid`), the update still succeeds and leaves the track's
pointer aimed at the other track's revision.  The same-track invariant is
enforced only by `setActive`, not by this endpoint. -/
theorem C9_patch_track_skips_ownership_check (db : DB) (tid : Nat) (r : Revision)
    (t : Track) (ht : db.tracks.find? (fun x => x.id == tid) = some t)
    (hr : r ∈ db.revisions) (hcross : r.track_id ≠ tid) :
    (updateTrack db tid
        { name := none, instrument_type := none, sort_order := none,
          active_revision_id := some (some r.id) }).1 = .ok () ∧
      { t with active_revision_id := some r.id } ∈
        (updateTrack db tid
          { name := none, instrument_type := none, sort_order := none,
            active_revision_id := some (some r.id) }).2.tracks ∧
      r.track_id ≠ tid := by
  have hpred := List.find?_some ht
  have hmem := List.mem_of_find?_eq_some ht
  have hany : (db.revisions.any fun x => x.id == r.id) = true :=
    List.any_eq_true.mpr ⟨r, hr, by simp⟩
  unfold updateTrack
  rw [ht]
  dsimp only
  rw [hany]
  refine ⟨rfl, ?_, hcross⟩
  have := List.mem_map_of_mem
    (f := fun x : Track => if x.id == tid then
      updateTrack.applyTrackUpdate x
        { name := none, instrument_type := none, sort_order := none,
          active_revision_id := some (some r.id) } else x) hmem
  simpa [hpred, updateTrack.applyTrackUpdate] using this

/-- Second track used by the C9/C6 witnesses. -/
def trackC9b : Track :=
  { id := 2, song_id := 0, name := "Bass", instrument_type := none,
    sort_order := 2, active_revision_id := some 7 }

/-- Store for the C9 witness: revision 7 belongs to track 2, and the PATCH
aims track 1's pointer at it. -/
def dbC9 : DB :=
  { songs := [0],
    tracks := [trackC3, trackC9b],
    counters := [(2, 1)],
    revisions := [{ id := 7, track_id := 2, revision_number := 1,
                    title := none, memo := none, idempotency_key := none }],
    assets := [], sessions := [], sessionTracks := [] }

theorem C9_patch_track_skips_ownership_check_witness :
    dbC9.tracks.find? (fun x => x.id == 1) = some trackC3 ∧
      ((updateTrack dbC9 1
          { name := none, instrument_type := none, sort_order := none,
            active_revision_id := some (some 7) }).1 = .ok () ∧
        { trackC3 with active_revision_id := some 7 } ∈
          (updateTrack dbC9 1
            { name := none, instrument_type := none, sort_order := none,
              active_revision_id := some (some 7) }).2.tracks ∧
        (2 : Nat) ≠ 1) :=
  ⟨rfl,
    C9_patch_track_skips_ownership_check dbC9 1
      { id := 7, track_id := 2, revision_number := 1, title := none,
        memo := none, idempotency_key := none }
      trackC3 rfl (by decide) (by decide)⟩

/-- C6: `setActive` validation.  When no revision row has both the supplied
id and this track's id (the revision does not exist, or belongs to another
track), the call fails with a NotFound error and the whole store — in
particular the track's `active_revision_id` — is unchanged.  When the
revision does belong to the track, the call succeeds, sets the track's
pointer to the supplied id, and leaves every other track unchanged. -/
theorem C6_set_active_validates_ownership (db : DB) (tid rid : Nat) :
    (db.revisions.find? (fun r => r.id == rid && r.track_id == tid) = none →
      (∃ m, (setActiveRevision db tid rid).1 = .error (.notFound m)) ∧
        (setActiveRevision db tid rid).2 = db) ∧
    (∀ t ∈ db.tracks, t.id = tid →
      (db.revisions.any fun r => r.id == rid && r.track_id == tid) = true →
      (setActiveRevision db tid rid).1 = .ok () ∧
        { t with active_revision_id := some rid } ∈
          (setActiveRevision db tid rid).2.tracks ∧
        ∀ u ∈ db.tracks, u.id ≠ tid → u ∈ (setActiveRevision db tid rid).2.tracks) := by
  constructor
  · intro hnone
    unfold setActiveRevision
    cases htr : db.tracks.find? (fun t => t.id == tid) with
    | none => exact ⟨⟨"Track not found", rfl⟩, rfl⟩
    | some t => rw [hnone]; exact ⟨⟨"Revision not found", rfl⟩, rfl⟩
  · intro t ht htid hany
    obtain ⟨r, hrmem, hrp⟩ := List.any_eq_true.mp hany
    cases htr : db.tracks.find? (fun x => x.id == tid) with
    | none =>
      exfalso
      have := List.find?_eq_none.mp htr t ht
      simp [htid] at this
    | some t0 =>
      cases hrev : db.revisions.find? (fun r => r.id == rid && r.track_id == tid) with
      | none =>
        exfalso
        have := List.find?_eq_none.mp hrev r hrmem
        simp [hrp] at this
      | some r0 =>
        unfold setActiveRevision
        rw [htr, hrev]
        refine ⟨rfl, ?_, ?_⟩
        · have := List.mem_map_of_mem
            (f := fun x : Track => if x.id == tid then
              { x with active_revision_id := some rid } else x) ht
          simpa [htid] using this
        · intro u hu hune
          have hb : (u.id == tid) = false := by simp [hune]
          have := List.mem_map_of_mem
            (f := fun x : Track => if x.id == tid then
              { x with active_revision_id := some rid } else x) hu
          simpa [hb] using this

theorem C6_set_active_validates_ownership_witness :
    ((dbC9.revisions.find? (fun r => r.id == 7 && r.track_id == 1) = none) ∧
        (∃ m, (setActiveRevision dbC9 1 7).1 = .error (.notFound m)) ∧
        (setActiveRevision dbC9 1 7).2 = dbC9) ∧
      (trackC9b ∈ dbC9.tracks ∧ trackC9b.id = 2 ∧
        (dbC9.revisions.any fun r => r.id == 7 && r.track_id == 2) = true ∧
        (setActiveRevision dbC9 2 7).1 = .ok () ∧
        { trackC9b with active_revision_id := some 7 } ∈
          (setActiveRevision dbC9 2 7).2.tracks) :=
  ⟨⟨rfl, (C6_set_active_validates_ownership dbC9 1 7).1 rfl⟩,
    by
      have h := (C6_set_active_validates_ownership dbC9 2 7).2 trackC9b
        (by decide) rfl (by decide)
      exact ⟨by decide, rfl, by decide, h.1, h.2.1⟩⟩

/-- C5: `createRevision` is idempotent under a repeated idempotency key.
Starting from a store with no revision for `(tid, k)`, a first successful
call with key `k` followed by a second call with the same key makes the
second call return the very same revision AND the very same store (so no new
row is inserted and the track's counter is not advanced), and the store holds
exactly one revision row for `(tid, k)`. -/
theorem C5_create_revision_idempotent (db : DB) (tid nid nid' : Nat)
    (b b' : CreateRevisionBody) (k : String) (rev : Revision) (db₁ : DB)
    (hk : b.idempotency_key = some k) (hk' : b'.idempotency_key = some k)
    (hnone : db.revisions.find?
        (fun r => r.track_id == tid && r.idempotency_key == some k) = none)
    (h1 : createRevision db tid b nid = (.ok rev, db₁)) :
    createRevision db₁ tid b' nid' = (.ok rev, db₁) ∧
      (db₁.revisions.filter
        (fun r => r.track_id == tid && r.idempotency_key == some k)).length = 1 := by
  unfold createRevision at h1
  cases htr : db.tracks.find? (fun t => t.id == tid) with
  | none => rw [htr] at h1; simp at h1
  | some t =>
    rw [htr, hk] at h1
    dsimp only at h1
    rw [hnone] at h1
    unfold createRevisionInsert at h1
    dsimp only at h1
    split at h1
    · simp at h1
    · rw [Prod.mk.injEq] at h1
      have hrev : rev =
          { id := nid, track_id := tid,
            revision_number := (allocate_track_revision_number db.counters tid).1,
            title := b.title, memo := b.memo, idempotency_key := b.idempotency_key } := by
        have := h1.1
        cases this
        rfl
      have hdb : db₁ =
          { db with counters := (allocate_track_revision_number db.counters tid).2,
                    revisions := db.revisions ++
                      [{ id := nid, track_id := tid,
                         revision_number := (allocate_track_revision_number db.counters tid).1,
                         title := b.title, memo := b.memo,
                         idempotency_key := b.idempotency_key }] } := h1.2.symm
      have hfail := List.find?_eq_none.mp hnone
      constructor
      · subst hdb
        unfold createRevision
        rw [htr, hk']
        dsimp only
        rw [List.find?_append, hnone, Option.none_or]
        simp [hrev, hk]
      · subst hdb
        dsimp only
        rw [List.filter_append]
        rw [List.filter_eq_nil_iff.mpr (by intro x hx; simpa using hfail x hx)]
        simp [hrev, hk]

/-- Store for the C5 witness: one song, one fresh track, no revisions. -/
def dbC5 : DB :=
  { songs := [0], tracks := [trackC3], counters := [], revisions := [],
    assets := [], sessions := [], sessionTracks := [] }

/-- The revision the first keyed call on `dbC5` inserts. -/
def revC5 : Revision :=
  { id := 41, track_id := 1, revision_number := 1, title := some "take",
    memo := none, idempotency_key := some "key-1" }

/-- The store after the first keyed call on `dbC5`. -/
def dbC5' : DB :=
  { dbC5 with counters := [(1, 1)], revisions := [revC5] }

theorem C5_create_revision_idempotent_witness :
    dbC5.revisions.find?
        (fun r => r.track_id == 1 && r.idempotency_key == some "key-1") = none ∧
      createRevision dbC5 1 ⟨some "take", none, some "key-1"⟩ 41 = (.ok revC5, dbC5') ∧
      createRevision dbC5' 1 ⟨some "take", none, some "key-1"⟩ 42 = (.ok revC5, dbC5') ∧
      (dbC5'.revisions.filter
        (fun r => r.track_id == 1 && r.idempotency_key == some "key-1")).length = 1 :=
  ⟨rfl, rfl,
    C5_create_revision_idempotent dbC5 1 41 42
      ⟨some "take", none, some "key-1"⟩ ⟨some "take", none, some "key-1"⟩
      "key-1" revC5 dbC5' rfl rfl rfl rfl⟩

/-- Asset already `ready` for the C2 counterexample. -/
def assetC2 : Asset :=
  { id := 10, track_revision_id := 2, asset_type := .audio_preview,
    format := .mp3, s3_key := "0/1/2/audio_preview-10.mp3",
    content_type := "audio/mpeg", byte_size := some 5, duration_sec := none,
    sample_rate := none, channels := none, status := .ready }

/-- Store for the C2 counterexample: revision 2 of track 1 already has an
`audio_preview` asset in status `ready`. -/
def dbC2 : DB :=
  { songs := [0],
    tracks := [{ id := 1, song_id := 0, name := "Vox", instrument_type := none,
                 sort_order := 1, active_revision_id := some 2 }],
    counters := [(1, 1)],
    revisions := [{ id := 2, track_id := 1, revision_number := 1, title := none,
                    memo := none, idempotency_key := none }],
    assets := [assetC2], sessions := [], sessionTracks := [] }

/-- Presign request body used in the C2 counterexample and witness. -/
def presignBodyC2 : PresignBody :=
  { asset_type := .audio_preview, format := .mp3,
    content_type := "audio/mpeg", byte_size := none }

/-- C2 counterexample: on the worker API, a second presign for the same
`(revision, asset_type)` pair does NOT return the first call's `asset_id`
with a reset status — it fails with 409 Conflict and changes nothing
(`unique(track_revision_id, asset_type)` makes the fresh-id insert abort). -/
theorem C2_counterexample :
    (presignAsset dbC2 2 presignBodyC2 11).1 =
        .error (.conflict "Asset type already exists for this revision") ∧
      (presignAsset dbC2 2 presignBodyC2 11).2 = dbC2 ∧
      assetC2.status = .ready :=
  ⟨rfl, rfl, rfl⟩

/-- C2 amended: when an asset for `(revision, asset_type)` already exists, the
worker's presign endpoint fails with 409 "Asset type already exists for this
revision" (the README documents 409 for asset unique conflicts) and leaves
the store unchanged — whatever the existing asset's status.  The reuse-and-
reset behaviour the claim describes is implemented only by the mock client:
there, presigning the same pair again returns the EXISTING asset's id and
resets that asset's status to `pending` (even from `ready`), leaving all
other assets unchanged and creating no new row. -/
theorem C2_presign_conflicts_not_reuses :
    (∀ (db : DB) (rid : Nat) (body : PresignBody) (aid : Nat) (a : Asset),
      a ∈ db.assets → a.track_revision_id = rid → a.asset_type = body.asset_type →
      (presignAsset db rid body aid).1 =
          .error (.conflict "Asset type already exists for this revision") ∨
        (presignAsset db rid body aid).1 = .error (.notFound "Revision not found")) ∧
    (∀ (db : DB) (rid : Nat) (body : PresignBody) (aid : Nat) (a : Asset),
      a ∈ db.assets → a.track_revision_id = rid → a.asset_type = body.asset_type →
      (presignAsset db rid body aid).2 = db) ∧
    (∀ (st : MockState) (rid : Nat) (body : PresignBody) (nid : Nat) (a : MockAsset),
      st.assets.find? (fun x =>
          x.track_revision_id == rid && x.asset_type == body.asset_type) = some a →
      (st.revisions.find? (fun r => r.id == rid)).isSome →
      (mockPresignAsset st rid body nid).1 = .ok a.id ∧
        { a with status := .pending } ∈ (mockPresignAsset st rid body nid).2.assets ∧
        (∀ x ∈ st.assets,
          x.track_revision_id ≠ rid ∨ x.asset_type ≠ body.asset_type →
          x ∈ (mockPresignAsset st rid body nid).2.assets) ∧
        (mockPresignAsset st rid body nid).2.assets.length = st.assets.length) := by
  have hconf : ∀ (db : DB) (rid : Nat) (body : PresignBody) (a : Asset),
      a ∈ db.assets → a.track_revision_id = rid → a.asset_type = body.asset_type →
      (db.assets.any fun x =>
        x.track_revision_id == rid && x.asset_type == body.asset_type) = true := by
    intro db rid body a ha h1 h2
    exact List.any_eq_true.mpr ⟨a, ha, by simp [h1, h2]⟩
  refine ⟨?_, ?_, ?_⟩
  · intro db rid body aid a ha h1 h2
    unfold presignAsset
    cases hrev : db.revisions.find? (fun r => r.id == rid) with
    | none => right; rfl
    | some rv =>
      dsimp only
      cases htr : db.tracks.find? (fun t => t.id == rv.track_id) with
      | none => right; rfl
      | some tr =>
        left
        dsimp only
        simp [hconf db rid body a ha h1 h2]
  · intro db rid body aid a ha h1 h2
    unfold presignAsset
    cases hrev : db.revisions.find? (fun r => r.id == rid) with
    | none => rfl
    | some rv =>
      dsimp only
      cases htr : db.tracks.find? (fun t => t.id == rv.track_id) with
      | none => rfl
      | some tr =>
        dsimp only
        simp [hconf db rid body a ha h1 h2]
  · intro st rid body nid a hfind hsome
    obtain ⟨rv, hrv⟩ := Option.isSome_iff_exists.mp hsome
    have hpred := List.find?_some hfind
    rw [Bool.and_eq_true] at hpred
    have hmem := List.mem_of_find?_eq_some hfind
    unfold mockPresignAsset
    rw [hrv]
    dsimp only
    rw [hfind]
    dsimp only
    refine ⟨rfl, ?_, ?_, by simp⟩
    · have := List.mem_map_of_mem
        (f := fun x : MockAsset =>
          if x.track_revision_id == rid && x.asset_type == body.asset_type then
            { x with status := AssetStatus.pending }
          else x) hmem
      simpa [hpred.1, hpred.2] using this
    · intro x hx hne
      have hb : (x.track_revision_id == rid && x.asset_type == body.asset_type) = false := by
        rcases hne with hne | hne <;> simp [hne]
      have := List.mem_map_of_mem
        (f := fun y : MockAsset =>
          if y.track_revision_id == rid && y.asset_type == body.asset_type then
            { y with status := AssetStatus.pending }
          else y) hx
      simpa [hb] using this

/-- Mock asset already `ready`, for the C2 witness. -/
def mockAssetC2 : MockAsset :=
  { id := 10, track_revision_id := 2, asset_type := .audio_preview,
    format := .mp3, status := .ready, content_type := "audio/mpeg",
    byte_size := some 5 }

/-- Mock store for the C2 witness. -/
def mockStC2 : MockState :=
  { tracks := [],
    revisions := [{ id := 2, track_id := 1, revision_number := 1,
                    title := none, memo := none }],
    assets := [mockAssetC2], mixSessions := [], mixSessionTracks := [] }

theorem C2_presign_conflicts_not_reuses_witness :
    (assetC2 ∈ dbC2.assets ∧
        ((presignAsset dbC2 2 presignBodyC2 11).1 =
            .error (.conflict "Asset type already exists for this revision") ∨
          (presignAsset dbC2 2 presignBodyC2 11).1 =
            .error (.notFound "Revision not found"))) ∧
      (mockStC2.assets.find? (fun x =>
          x.track_revision_id == 2 && x.asset_type == AssetType.audio_preview) =
            some mockAssetC2 ∧
        (mockPresignAsset mockStC2 2 presignBodyC2 11).1 = .ok 10 ∧
        { mockAssetC2 with status := AssetStatus.pending } ∈
          (mockPresignAsset mockStC2 2 presignBodyC2 11).2.assets) := by
  have hw := C2_presign_conflicts_not_reuses.1 dbC2 2 presignBodyC2 11 assetC2
    (by decide) rfl rfl
  have hm := C2_presign_conflicts_not_reuses.2.2 mockStC2 2 presignBodyC2 11
    mockAssetC2 rfl rfl
  exact ⟨⟨by decide, hw⟩, ⟨rfl, hm.1, hm.2.1⟩⟩

/-- Session-track row for track 1 (session 1), C1 counterexample. -/
def rowC1A : MixSessionTrack :=
  { mix_session_id := 1, track_id := 1, track_revision_id := some 2,
    mute := false, gain_db := 0, pan := 0, start_offset_ms := 0 }

/-- Session-track row for track 2 (session 1), C1 counterexample. -/
def rowC1B : MixSessionTrack :=
  { mix_session_id := 1, track_id := 2, track_revision_id := some 3,
    mute := false, gain_db := 0, pan := 0, start_offset_ms := 0 }

/-- Store for the C1 counterexample: session 1 currently covers tracks 1, 2. -/
def dbC1 : DB :=
  { songs := [0], tracks := [], counters := [], revisions := [], assets := [],
    sessions := [{ id := 1, song_id := 0, name := "mix" }],
    sessionTracks := [rowC1A, rowC1B] }

/-- PUT payload naming only track 1, C1 counterexample. -/
def inpC1A : SessionTrackInput :=
  { track_id := 1, track_revision_id := some 2, mute := true, gain_db := 0,
    pan := 0, start_offset_ms := 0 }

/-- C1 counterexample: the worker's PUT with a payload containing only
track 1 succeeds but leaves session 1 with TWO rows — track 2's prior row
survives untouched, so the endpoint is not a full replace. -/
theorem C1_counterexample :
    (replaceSessionTracks dbC1 1 [inpC1A]).1 = .ok () ∧
      rowC1B ∈ (replaceSessionTracks dbC1 1 [inpC1A]).2.sessionTracks ∧
      ((replaceSessionTracks dbC1 1 [inpC1A]).2.sessionTracks.filter
        (fun r => r.mix_session_id == 1)).length = 2 :=
  ⟨rfl, by decide, rfl⟩

theorem mem_upsertRow_self (rows : List MixSessionTrack) (n : MixSessionTrack) :
    n ∈ upsertRow rows n := by
  unfold upsertRow
  split
  · rename_i h
    obtain ⟨r, hr, hp⟩ := List.any_eq_true.mp h
    have := List.mem_map_of_mem
      (f := fun r : MixSessionTrack =>
        if r.mix_session_id == n.mix_session_id && r.track_id == n.track_id then n else r) hr
    simpa [hp] using this
  · simp

theorem mem_upsertRow_of_ne (rows : List MixSessionTrack) (n r : MixSessionTrack)
    (hr : r ∈ rows)
    (hne : r.mix_session_id ≠ n.mix_session_id ∨ r.track_id ≠ n.track_id) :
    r ∈ upsertRow rows n := by
  unfold upsertRow
  split
  · have hb : (r.mix_session_id == n.mix_session_id && r.track_id == n.track_id) = false := by
      rcases hne with h | h <;> simp [h]
    have := List.mem_map_of_mem
      (f := fun r : MixSessionTrack =>
        if r.mix_session_id == n.mix_session_id && r.track_id == n.track_id then n else r) hr
    simpa [hb] using this
  · exact List.mem_append_left _ hr

theorem mem_foldl_upsert_of_ne (news rows : List MixSessionTrack)
    (r : MixSessionTrack) (hr : r ∈ rows)
    (h : ∀ n ∈ news, r.mix_session_id ≠ n.mix_session_id ∨ r.track_id ≠ n.track_id) :
    r ∈ news.foldl upsertRow rows := by
  induction news generalizing rows with
  | nil => exact hr
  | cons n rest ih =>
    exact ih (upsertRow rows n)
      (mem_upsertRow_of_ne rows n r hr (h n (by simp)))
      (fun m hm => h m (by simp [hm]))

theorem mem_foldl_upsert_self (news rows : List MixSessionTrack)
    (n : MixSessionTrack) (hn : n ∈ news)
    (hnodup : (news.map (fun x => x.track_id)).Nodup) :
    n ∈ news.foldl upsertRow rows := by
  induction news generalizing rows with
  | nil => cases hn
  | cons m rest ih =>
    rcases List.mem_cons.mp hn with rfl | hn'
    · apply mem_foldl_upsert_of_ne rest (upsertRow rows n) n (mem_upsertRow_self rows n)
      intro x hx
      right
      intro hEq
      have hm : n.track_id ∉ rest.map (fun x => x.track_id) :=
        (List.nodup_cons.mp hnodup).1
      exact hm (by rw [hEq]; exact List.mem_map_of_mem _ hx)
    · exact ih (upsertRow rows m) hn' (List.nodup_cons.mp hnodup).2

/-- C1 amended: the worker's `PUT /api/sessions/:sessionId/tracks` is an
upsert keyed on `(mix_session_id, track_id)`, not a full replace: every
pre-existing row whose session differs, or whose track is absent from the
payload, survives unchanged; every payload entry ends up present as a row of
the session (its pre-existing row, if any, overwritten).  The true
full-replace semantics the claim describes is implemented only by the mock
client, where after the call the session's row set is exactly the payload
(and rows of other sessions survive). -/
theorem C1_replace_session_tracks_upserts :
    (∀ (db : DB) (sid : Nat) (body : List SessionTrackInput) (r : MixSessionTrack),
      r ∈ db.sessionTracks →
      (r.mix_session_id ≠ sid ∨ r.track_id ∉ body.map (fun t => t.track_id)) →
      r ∈ (replaceSessionTracks db sid body).2.sessionTracks) ∧
    (∀ (db : DB) (sid : Nat) (body : List SessionTrackInput) (s : MixSession),
      db.sessions.find? (fun s => s.id == sid) = some s →
      (body.map (fun t => t.track_id)).Nodup →
      ∀ inp ∈ body, inp.toRow sid ∈ (replaceSessionTracks db sid body).2.sessionTracks) ∧
    (∀ (st : MockState) (sid : Nat) (body : List SessionTrackInput) (s : MixSession),
      st.mixSessions.find? (fun s => s.id == sid) = some s →
      ((mockReplaceSessionTracks st sid body).2.mixSessionTracks.filter
          (fun r => r.mix_session_id == sid)) = body.map (fun t => t.toRow sid) ∧
        (∀ r ∈ st.mixSessionTracks, r.mix_session_id ≠ sid →
          r ∈ (mockReplaceSessionTracks st sid body).2.mixSessionTracks)) := by
  refine ⟨?_, ?_, ?_⟩
  · intro db sid body r hr hne
    unfold replaceSessionTracks
    cases hs : db.sessions.find? (fun s => s.id == sid) with
    | none => exact hr
    | some s =>
      dsimp only
      apply mem_foldl_upsert_of_ne _ _ _ hr
      intro n hn
      obtain ⟨inp, hinp, rfl⟩ := List.mem_map.mp hn
      rcases hne with h | h
      · left; simpa [SessionTrackInput.toRow] using h
      · right
        intro hEq
        apply h
        rw [show r.track_id = inp.track_id from hEq]
        exact List.mem_map_of_mem _ hinp
  · intro db sid body s hs hnodup inp hinp
    unfold replaceSessionTracks
    rw [hs]
    dsimp only
    apply mem_foldl_upsert_self
    · exact List.mem_map_of_mem _ hinp
    · simpa [List.map_map, SessionTrackInput.toRow, Function.comp] using hnodup
  · intro st sid body s hs
    unfold mockReplaceSessionTracks
    rw [hs]
    dsimp only
    constructor
    · rw [List.filter_append]
      rw [List.filter_eq_nil_iff.mpr ?hnil]
      case hnil =>
        intro x hx
        have := (List.mem_filter.mp hx).2
        simp only [bne_iff_ne, ne_eq] at this
        simp [this]
      rw [List.nil_append]
      apply List.filter_eq_self.mpr
      intro row hrow
      obtain ⟨inp, hinp2, rfl⟩ := List.mem_map.mp hrow
      simp [SessionTrackInput.toRow]
    · intro r hr hne
      apply List.mem_append_left
      exact List.mem_filter.mpr ⟨hr, by simpa [bne_iff_ne] using hne⟩

/-- Mock store matching `dbC1`, for the C1 witness. -/
def mockStC1 : MockState :=
  { tracks := [], revisions := [], assets := [],
    mixSessions := [{ id := 1, song_id := 0, name := "mix" }],
    mixSessionTracks := [rowC1A, rowC1B] }

theorem C1_replace_session_tracks_upserts_witness :
    (rowC1B ∈ dbC1.sessionTracks ∧
        (rowC1B.mix_session_id ≠ 1 ∨
          rowC1B.track_id ∉ [inpC1A].map (fun t => t.track_id)) ∧
        rowC1B ∈ (replaceSessionTracks dbC1 1 [inpC1A]).2.sessionTracks) ∧
      (dbC1.sessions.find? (fun s => s.id == 1) =
          some { id := 1, song_id := 0, name := "mix" } ∧
        ([inpC1A].map (fun t => t.track_id)).Nodup ∧
        inpC1A.toRow 1 ∈ (replaceSessionTracks dbC1 1 [inpC1A]).2.sessionTracks) ∧
      (mockStC1.mixSessions.find? (fun s => s.id == 1) =
          some { id := 1, song_id := 0, name := "mix" } ∧
        ((mockReplaceSessionTracks mockStC1 1 [inpC1A]).2.mixSessionTracks.filter
          (fun r => r.mix_session_id == 1)) = [inpC1A].map (fun t => t.toRow 1)) :=
  ⟨⟨by decide, Or.inr (by decide),
      C1_replace_session_tracks_upserts.1 dbC1 1 [inpC1A] rowC1B (by decide)
        (Or.inr (by decide))⟩,
    ⟨rfl, by decide,
      C1_replace_session_tracks_upserts.2.1 dbC1 1 [inpC1A]
        { id := 1, song_id := 0, name := "mix" } rfl (by decide) inpC1A (by decide)⟩,
    ⟨rfl,
      (C1_replace_session_tracks_upserts.2.2 mockStC1 1 [inpC1A]
        { id := 1, song_id := 0, name := "mix" } rfl).1⟩⟩

/-- The revision numbers recorded for track `tid`, in row order. -/
def trackNumbers (db : DB) (tid : Nat) : List Nat :=
  (db.revisions.filter (fun r => r.track_id == tid)).map (fun r => r.revision_number)

/-- A create-revision body with no idempotency key. -/
def noKey : CreateRevisionBody :=
  { title := none, memo := none, idempotency_key := none }

/-- N sequential keyless `createRevision` calls for one track (the claim's N
concurrent calls: the SQL counter update is a single atomic statement, so
concurrent executions serialize and are modelled by this sequential run). -/
def runCreates (db : DB) (tid : Nat) : List Nat → Except ApiError DB
  | [] => .ok db
  | id :: rest =>
    match createRevision db tid noKey id with
    | (.ok _, db') => runCreates db' tid rest
    | (.error e, _) => .error e

/-- Spec of the stored allocator: with the counter row for `tid` absent
(`k = 0`) or holding `k`, the call returns `k + 1` and leaves the row
holding `k + 1`. -/
theorem allocate_track_revision_number_spec (counters : List (Nat × Nat))
    (tid k : Nat)
    (hcounter : counters.find? (fun c => c.1 == tid) =
      (if k = 0 then none else some (tid, k))) :
    (allocate_track_revision_number counters tid).1 = k + 1 ∧
      (allocate_track_revision_number counters tid).2.find?
        (fun c => c.1 == tid) = some (tid, k + 1) := by
  unfold allocate_track_revision_number
  by_cases hk : k = 0
  · subst hk
    rw [if_pos rfl] at hcounter
    rw [hcounter]
    dsimp only
    refine ⟨rfl, ?_⟩
    rw [List.find?_append, hcounter]
    simp
  · rw [if_neg hk] at hcounter
    rw [hcounter]
    dsimp only
    refine ⟨rfl, ?_⟩
    rw [List.find?_map]
    have hpred : ((fun c : Nat × Nat => c.1 == tid) ∘
        (fun d : Nat × Nat => if d.1 == tid then (d.1, d.2 + 1) else d)) =
        (fun c : Nat × Nat => c.1 == tid) := by
      funext c
      by_cases h : c.1 = tid <;> simp [h]
    rw [hpred, hcounter]
    simp

theorem createRevision_noKey_step (db : DB) (tid nid k : Nat)
    (htrack : (db.tracks.find? (fun t => t.id == tid)).isSome)
    (hcounter : db.counters.find? (fun c => c.1 == tid) =
      (if k = 0 then none else some (tid, k)))
    (hnums : trackNumbers db tid = List.range' 1 k) :
    ∃ db', createRevision db tid noKey nid =
        (.ok { id := nid, track_id := tid, revision_number := k + 1,
               title := none, memo := none, idempotency_key := none }, db') ∧
      db'.tracks = db.tracks ∧
      db'.counters.find? (fun c => c.1 == tid) = some (tid, k + 1) ∧
      trackNumbers db' tid = List.range' 1 (k + 1) := by
  obtain ⟨t, ht⟩ := Option.isSome_iff_exists.mp htrack
  obtain ⟨ha1, ha2⟩ := allocate_track_revision_number_spec db.counters tid k hcounter
  have hrange : List.range' 1 (k + 1) = List.range' 1 k ++ [k + 1] := by
    rw [List.range'_concat, one_mul, Nat.add_comm]
  have hnoconf : (db.revisions.any fun r =>
      r.track_id == tid &&
        (r.revision_number == k + 1 ||
          (noKey.idempotency_key.isSome && r.idempotency_key == noKey.idempotency_key))) = false := by
    apply any_eq_false_iff.mpr
    intro r hr
    by_cases hrt : (r.track_id == tid) = true
    · have hrf : r ∈ db.revisions.filter (fun r => r.track_id == tid) :=
        List.mem_filter.mpr ⟨hr, hrt⟩
      have hmemnum : r.revision_number ∈ trackNumbers db tid :=
        List.mem_map_of_mem _ hrf
      rw [hnums] at hmemnum
      have hlt : r.revision_number < 1 + k := (List.mem_range'_1.mp hmemnum).2
      have hne : (r.revision_number == k + 1) = false := by
        simp only [beq_eq_false_iff_ne, ne_eq]
        omega
      simp [hne, noKey]
    · simp [hrt]
  refine ⟨{ db with
      counters := (allocate_track_revision_number db.counters tid).2,
      revisions := db.revisions ++
        [{ id := nid, track_id := tid, revision_number := k + 1,
           title := none, memo := none, idempotency_key := none }] },
    ?_, rfl, ha2, ?_⟩
  · unfold createRevision
    rw [ht]
    dsimp only [noKey]
    unfold createRevisionInsert
    dsimp only
    rw [ha1]
    have hnoconf' := hnoconf
    dsimp only [noKey] at hnoconf'
    rw [hnoconf']
    rfl
  · have hstep : trackNumbers { db with
        counters := (allocate_track_revision_number db.counters tid).2,
        revisions := db.revisions ++
          [{ id := nid, track_id := tid, revision_number := k + 1,
             title := none, memo := none, idempotency_key := none }] } tid =
        trackNumbers db tid ++ [k + 1] := by
      simp [trackNumbers, List.filter_append]
    rw [hstep, hnums]
    exact hrange.symm

theorem runCreates_spec (ids : List Nat) (db : DB) (tid k : Nat)
    (htrack : (db.tracks.find? (fun t => t.id == tid)).isSome)
    (hcounter : db.counters.find? (fun c => c.1 == tid) =
      (if k = 0 then none else some (tid, k)))
    (hnums : trackNumbers db tid = List.range' 1 k) :
    ∃ db', runCreates db tid ids = .ok db' ∧
      trackNumbers db' tid = List.range' 1 (k + ids.length) := by
  induction ids generalizing db k with
  | nil => exact ⟨db, rfl, by simpa using hnums⟩
  | cons id rest ih =>
    obtain ⟨db1, heq, htr, hc, hn⟩ :=
      createRevision_noKey_step db tid id k htrack hcounter hnums
    have htrack1 : (db1.tracks.find? (fun t => t.id == tid)).isSome := by
      rw [htr]; exact htrack
    have hcounter1 : db1.counters.find? (fun c => c.1 == tid) =
        (if k + 1 = 0 then none else some (tid, k + 1)) := by
      simp [hc]
    obtain ⟨db', h2, h3⟩ := ih db1 (k + 1) htrack1 hcounter1 hn
    refine ⟨db', ?_, ?_⟩
    · unfold runCreates
      rw [heq]
      exact h2
    · rw [h3]
      have : k + 1 + rest.length = k + (rest.length + 1) := by omega
      rw [this]
      rfl

/-- C4: starting from a track with no revisions and no counter row, N
keyless `createRevision` calls all succeed and the track's recorded
`revision_number` list is exactly `[1, 2, ..., N]` in creation order: the
counter-backed allocator hands out distinct, strictly increasing integers
starting at 1 with no gaps and no duplicates. -/
theorem C4_revision_numbers_gapless (db : DB) (tid : Nat) (ids : List Nat)
    (htrack : (db.tracks.find? (fun t => t.id == tid)).isSome)
    (hcounter : db.counters.find? (fun c => c.1 == tid) = none)
    (hnums : trackNumbers db tid = []) :
    ∃ db', runCreates db tid ids = .ok db' ∧
      trackNumbers db' tid = List.range' 1 ids.length ∧
      (∀ n, n ∈ trackNumbers db' tid ↔ 1 ≤ n ∧ n < ids.length + 1) ∧
      (trackNumbers db' tid).Pairwise (· < ·) := by
  obtain ⟨db', h1, h2⟩ := runCreates_spec ids db tid 0 htrack
    (by simpa using hcounter) (by simpa using hnums)
  have h2' : trackNumbers db' tid = List.range' 1 ids.length := by
    simpa using h2
  refine ⟨db', h1, h2', ?_, ?_⟩
  · intro n
    rw [h2', List.mem_range'_1]
    omega
  · rw [h2']
    exact List.pairwise_lt_range' 1 ids.length

theorem C4_revision_numbers_gapless_witness :
    (dbC5.tracks.find? (fun t => t.id == 1)).isSome ∧
      dbC5.counters.find? (fun c => c.1 == 1) = none ∧
      trackNumbers dbC5 1 = [] ∧
      ∃ db', runCreates dbC5 1 [101, 102, 103] = .ok db' ∧
        trackNumbers db' 1 = List.range' 1 3 ∧
        (∀ n, n ∈ trackNumbers db' 1 ↔ 1 ≤ n ∧ n < 3 + 1) ∧
        (trackNumbers db' 1).Pairwise (· < ·) :=
  ⟨rfl, rfl, rfl,
    C4_revision_numbers_gapless dbC5 1 [101, 102, 103] rfl rfl rfl⟩

theorem foldl_pick_ne_none (l : List Revision) (b : Revision) :
    l.foldl (fun acc r =>
      match acc with
      | none => some r
      | some b => if b.revision_number < r.revision_number then some r else some b)
      (some b) ≠ none := by
  induction l generalizing b with
  | nil => simp
  | cons x rest ih =>
    dsimp only [List.foldl]
    by_cases h : b.revision_number < x.revision_number
    · rw [if_pos h]; exact ih x
    · rw [if_neg h]; exact ih b

theorem foldl_pick_mem (l : List Revision) :
    ∀ (acc : Option Revision) (r : Revision),
      l.foldl (fun acc r =>
        match acc with
        | none => some r
        | some b => if b.revision_number < r.revision_number then some r else some b)
        acc = some r →
      acc = some r ∨ r ∈ l := by
  induction l with
  | nil => intro acc r h; exact Or.inl h
  | cons x rest ih =>
    intro acc r h
    dsimp only [List.foldl] at h
    rcases ih _ r h with hacc | hmem
    · cases acc with
      | none =>
        dsimp only at hacc
        obtain rfl := Option.some.inj hacc
        exact Or.inr (List.mem_cons_self _ _)
      | some b =>
        dsimp only at hacc
        by_cases hlt : b.revision_number < x.revision_number
        · rw [if_pos hlt] at hacc
          obtain rfl := Option.some.inj hacc
          exact Or.inr (List.mem_cons_self _ _)
        · rw [if_neg hlt] at hacc
          exact Or.inl hacc
    · exact Or.inr (List.mem_cons_of_mem _ hmem)

theorem foldl_pick_ge (l : List Revision) :
    ∀ (acc : Option Revision) (r : Revision),
      l.foldl (fun acc r =>
        match acc with
        | none => some r
        | some b => if b.revision_number < r.revision_number then some r else some b)
        acc = some r →
      (∀ b, acc = some b → b.revision_number ≤ r.revision_number) ∧
      (∀ x ∈ l, x.revision_number ≤ r.revision_number) := by
  induction l with
  | nil =>
    intro acc r h
    refine ⟨?_, by simp⟩
    intro b hb
    rw [hb] at h
    obtain rfl := Option.some.inj h
    exact le_refl _
  | cons x rest ih =>
    intro acc r h
    dsimp only [List.foldl] at h
    obtain ⟨ih1, ih2⟩ := ih _ r h
    have hx : x.revision_number ≤ r.revision_number := by
      cases acc with
      | none => exact ih1 x rfl
      | some b =>
        by_cases hlt : b.revision_number < x.revision_number
        · exact ih1 x (by dsimp only; rw [if_pos hlt])
        · have hb := ih1 b (by dsimp only; rw [if_neg hlt])
          omega
    refine ⟨?_, ?_⟩
    · intro b hb
      subst hb
      dsimp only at ih1
      by_cases hlt : b.revision_number < x.revision_number
      · omega
      · exact ih1 b (by rw [if_neg hlt])
    · intro y hy
      rcases List.mem_cons.mp hy with rfl | hy'
      · exact hx
      · exact ih2 y hy'

/-- `pickLatest` really is the argmax over the track's revisions: `none`
exactly when the track has no revision, and a returned revision belongs to
the track and has the greatest `revision_number` among its revisions. -/
theorem pickLatest_spec (revs : List Revision) (tid : Nat) :
    (pickLatest revs tid = none → ∀ r ∈ revs, r.track_id ≠ tid) ∧
    (∀ r, pickLatest revs tid = some r →
      r ∈ revs ∧ r.track_id = tid ∧
        ∀ x ∈ revs, x.track_id = tid → x.revision_number ≤ r.revision_number) := by
  constructor
  · intro hnone r hr htid
    have hrf : r ∈ revs.filter (fun r => r.track_id == tid) :=
      List.mem_filter.mpr ⟨hr, by simp [htid]⟩
    unfold pickLatest at hnone
    cases hf : revs.filter (fun r => r.track_id == tid) with
    | nil => rw [hf] at hrf; cases hrf
    | cons x rest =>
      rw [hf] at hnone
      dsimp only [List.foldl] at hnone
      exact foldl_pick_ne_none rest x hnone
  · intro r hsome
    unfold pickLatest at hsome
    have hmem : r ∈ revs.filter (fun r => r.track_id == tid) := by
      rcases foldl_pick_mem _ _ _ hsome with h | h
      · cases h
      · exact h
    have hge := (foldl_pick_ge _ _ _ hsome).2
    obtain ⟨hr, htid⟩ := List.mem_filter.mp hmem
    refine ⟨hr, by simpa using htid, ?_⟩
    intro x hx hxt
    exact hge x (List.mem_filter.mpr ⟨hx, by simp [hxt]⟩)

/-- C7: `createSession` writes, beyond the pre-existing rows, exactly one
row per track of the song: the new rows' track ids (in order) are exactly
the song's track ids, each new row carries the resolved source revision and
the literal defaults `mute = false, gain/pan = 0, offset = 0`; resolution
under `base = active` is the track's current `active_revision_id` (null if
never set), and under `base = latest` it is the id of the track's
highest-numbered revision (null exactly when the track has no revision). -/
theorem C7_create_session_resolves_base (db : DB) (songId : Nat) (nm : String)
    (base : MixBase) (sessId : Nat)
    (hsong : songId ∈ db.songs)
    (hfresh : ∀ r ∈ db.sessionTracks, r.mix_session_id ≠ sessId) :
    (createSession db songId nm base sessId).1 =
        .ok { id := sessId, song_id := songId, name := nm } ∧
      ((createSession db songId nm base sessId).2.sessionTracks.filter
          (fun r => r.mix_session_id == sessId)).map (fun r => r.track_id) =
        (db.tracks.filter (fun t => t.song_id == songId)).map (fun t => t.id) ∧
      (∀ t ∈ db.tracks, t.song_id = songId →
        ({ mix_session_id := sessId, track_id := t.id,
           track_revision_id := resolveBase db base t,
           mute := false, gain_db := 0, pan := 0,
           start_offset_ms := 0 } : MixSessionTrack) ∈
          (createSession db songId nm base sessId).2.sessionTracks) ∧
      (∀ t : Track, resolveBase db MixBase.active t = t.active_revision_id) ∧
      (∀ t : Track,
        (resolveBase db MixBase.latest t = none →
          ∀ r ∈ db.revisions, r.track_id ≠ t.id) ∧
        (∀ rid, resolveBase db MixBase.latest t = some rid →
          ∃ r ∈ db.revisions, r.id = rid ∧ r.track_id = t.id ∧
            ∀ x ∈ db.revisions, x.track_id = t.id →
              x.revision_number ≤ r.revision_number)) := by
  have hc : db.songs.contains songId = true := by simpa using hsong
  have hres : (createSession db songId nm base sessId).1 =
      .ok { id := sessId, song_id := songId, name := nm } := by
    unfold createSession
    rw [if_pos hc]
    dsimp only
    split <;> rfl
  have hsess : (createSession db songId nm base sessId).2.sessionTracks =
      db.sessionTracks ++ (db.tracks.filter (fun t => t.song_id == songId)).map
        (snapshotRow db base sessId) := by
    unfold createSession
    rw [if_pos hc]
    dsimp only
    split
    · rename_i hrows
      rw [List.isEmpty_iff.mp hrows]
      simp
    · rfl
  refine ⟨hres, ?_, ?_, fun t => rfl, ?_⟩
  · rw [hsess, List.filter_append]
    rw [List.filter_eq_nil_iff.mpr ?hold]
    case hold =>
      intro x hx
      simpa using hfresh x hx
    rw [List.nil_append]
    rw [List.filter_eq_self.mpr ?hnew]
    case hnew =>
      intro row hrow
      obtain ⟨t, _, rfl⟩ := List.mem_map.mp hrow
      simp [snapshotRow]
    rw [List.map_map]
    rfl
  · intro t ht htid
    rw [hsess]
    apply List.mem_append_right
    exact List.mem_map_of_mem _ (List.mem_filter.mpr ⟨ht, by simp [htid]⟩)
  · intro t
    constructor
    · intro hnone r hr
      have : pickLatest db.revisions t.id = none := by
        have := hnone
        unfold resolveBase at this
        exact Option.map_eq_none'.mp this
      exact (pickLatest_spec db.revisions t.id).1 this r hr
    · intro rid hsome
      have : ∃ r, pickLatest db.revisions t.id = some r ∧ r.id = rid := by
        have := hsome
        unfold resolveBase at this
        exact Option.map_eq_some'.mp this
      obtain ⟨r, hpick, hid⟩ := this
      obtain ⟨hr, htid, hmax⟩ := (pickLatest_spec db.revisions t.id).2 r hpick
      exact ⟨r, hr, hid, htid, hmax⟩

/-- Store for the C7 witness: two tracks; track 1 has revisions 1 (number 1)
and 2 (number 2) with `active_revision_id = 1`; track 2 has no revisions. -/
def dbC7 : DB :=
  { songs := [0],
    tracks := [{ id := 1, song_id := 0, name := "Guitar", instrument_type := none,
                 sort_order := 1, active_revision_id := some 1 },
               { id := 2, song_id := 0, name := "Bass", instrument_type := none,
                 sort_order := 2, active_revision_id := none }],
    counters := [(1, 2)],
    revisions := [{ id := 1, track_id := 1, revision_number := 1, title := none,
                    memo := none, idempotency_key := none },
                  { id := 2, track_id := 1, revision_number := 2, title := none,
                    memo := none, idempotency_key := none }],
    assets := [], sessions := [], sessionTracks := [] }

theorem C7_create_session_resolves_base_witness :
    ((0 : Nat) ∈ dbC7.songs ∧ ∀ r ∈ dbC7.sessionTracks, r.mix_session_id ≠ 9) ∧
      ((createSession dbC7 0 "mix" MixBase.latest 9).1 =
          .ok { id := 9, song_id := 0, name := "mix" } ∧
        ((createSession dbC7 0 "mix" MixBase.latest 9).2.sessionTracks.filter
            (fun r => r.mix_session_id == 9)).map (fun r => r.track_id) =
          (dbC7.tracks.filter (fun t => t.song_id == 0)).map (fun t => t.id)) ∧
      resolveBase dbC7 MixBase.latest
          { id := 1, song_id := 0, name := "Guitar", instrument_type := none,
            sort_order := 1, active_revision_id := some 1 } = some 2 ∧
      resolveBase dbC7 MixBase.latest
          { id := 2, song_id := 0, name := "Bass", instrument_type := none,
            sort_order := 2, active_revision_id := none } = none ∧
      resolveBase dbC7 MixBase.active
          { id := 1, song_id := 0, name := "Guitar", instrument_type := none,
            sort_order := 1, active_revision_id := some 1 } = some 1 := by
  have h := C7_create_session_resolves_base dbC7 0 "mix" MixBase.latest 9
    (by decide) (by intro r hr; cases hr)
  exact ⟨⟨by decide, by intro r hr; cases hr⟩, ⟨h.1, h.2.1⟩, rfl, rfl, rfl⟩

end BandLab
